import Mathlib

/-!
Shallow embedding of `src/main.py` (dex-generator): a reconciler that polls a
GitLab project for open merge requests and keeps one Dex OIDC client per open
merge request, deleting clients of merge requests that are no longer open.

Modelling choices:
- Python `int` is `Int`; Python `str` is `String`; Python `set` of iids is
  `Finset Int`.
- The two external services are oracles.  The GitLab lister outcome is passed
  as `Except PyExc (List MergeRequest)` (either the list of open MRs or the
  exception the call raised).  The Dex gRPC stub is a `DexOracle` record whose
  fields give the outcome of each RPC; every function that talks to Dex also
  returns the list of registry calls it issued, so that properties about which
  RPCs were attempted can be stated.
- `secrets.token_urlsafe(32)` is random; it is modelled by an explicit
  `secretFor : Int → String` parameter (the argument mirrors the `mr_number`
  argument of `generate_client_secret`).
- Python exception classes relevant to `process_merge_requests` and `main` are
  the inductive `PyExc`; `derivesFromException` records whether a class
  derives from `Exception` (so that `except Exception` catches it).
  `KeyboardInterrupt` derives only from `BaseException`.
-/

namespace DexGen

/-- A Dex client record, mirroring the fields of `api_pb2.Client` that
`main.py` sets (id, secret, redirect_uris, trusted_peers, public, name,
logo_url). -/
structure Client where
  id : String
  secret : String
  redirect_uris : List String
  trusted_peers : List String
  public : Bool
  name : String
  logo_url : String
deriving Repr, DecidableEq

/-- A merge request as consumed by the script: the per-project numeric
identifier `iid` and the `title`. -/
structure MergeRequest where
  iid : Int
  title : String
deriving Repr, DecidableEq

/-- Abstract reason a gRPC call failed (`grpc.RpcError` in the source). The
constructors distinguish categories only for building test inputs; the source
treats every `grpc.RpcError` alike. -/
inductive RpcError
  | unavailable
  | notFound
  | alreadyExists
  | other
deriving Repr, DecidableEq

/-- Python exception classes that can cross `process_merge_requests`:
`gitlab.exceptions.GitlabError`, any other class deriving from `Exception`,
and `KeyboardInterrupt` (which derives from `BaseException` only). -/
inductive PyExc
  | gitlabError
  | otherException
  | keyboardInterrupt
deriving Repr, DecidableEq

/-- Whether the exception class derives from Python `Exception`, i.e. whether
an `except Exception` clause catches it.  `KeyboardInterrupt` does not. -/
def derivesFromException : PyExc → Bool
  | .gitlabError => true
  | .otherException => true
  | .keyboardInterrupt => false

/-- Oracle for the Dex gRPC stub: the outcome each RPC would have if issued.
`listClients` is the outcome of `ListClients`, `createClient c` the outcome of
`CreateClient` with client `c` (returning the created record), `deleteClient
id` the outcome of `DeleteClient` for that client id. -/
structure DexOracle where
  listClients : Except RpcError (List Client)
  createClient : Client → Except RpcError Client
  deleteClient : String → Except RpcError Unit

/-- A registry RPC the script issued (the observable side-effect trace toward
Dex). -/
inductive RegistryCall
  | listClients
  | createClient (c : Client)
  | deleteClient (id : String)
deriving Repr, DecidableEq

/-- `f"mr-{mr.iid}"` — the derived client id. -/
def clientIdFor (iid : Int) : String := "mr-" ++ toString iid

/-- `f"https://mr-{mr.iid}.preview.example.com/callback"` — the derived
redirect URI. -/
def redirectUriFor (iid : Int) : String :=
  "https://mr-" ++ toString iid ++ ".preview.example.com/callback"

/-- `f"MR !{mr.iid} - {mr.title}"` — the derived display name. -/
def clientNameFor (iid : Int) (title : String) : String :=
  "MR !" ++ toString iid ++ " - " ++ title

/-- `generate_client_secret(mr_number)`: returns a fresh random token in the
source; modelled by reading the externally supplied entropy `secretFor`. -/
def generate_client_secret (secretFor : Int → String) (mr_number : Int) : String :=
  secretFor mr_number

/-- `client_with_id_exists(dex_client, client_id)`: lists all clients and
scans for the first one whose id matches, returning `(True, client)`;
`(False, None)` when none matches, and also `(False, None)` when the
`ListClients` RPC itself raises `grpc.RpcError` (the `except` branch). -/
def client_with_id_exists (listResult : Except RpcError (List Client))
    (client_id : String) : Bool × Option Client :=
  match listResult with
  | .ok clients =>
      match clients.find? (fun client => client.id == client_id) with
      | some client => (true, some client)
      | none => (false, none)
  | .error _ => (false, none)

/-- `delete_client(dex_client, client_id)`: issues `DeleteClient`, returns
`True` on success and `False` when the RPC raises; either way exactly one
delete call is issued.  Result: (returned bool, registry calls issued). -/
def delete_client (o : DexOracle) (client_id : String) : Bool × List RegistryCall :=
  match o.deleteClient client_id with
  | .ok _ => (true, [.deleteClient client_id])
  | .error _ => (false, [.deleteClient client_id])

/-- `process_and_create_client(dex_client, mr)`: derives the client id,
secret and redirect URI, checks existence via `client_with_id_exists` (one
`ListClients` call), skips (returns `False`) when the client exists, and
otherwise issues `CreateClient` with the derived record, returning `True` on
success and `False` when the create RPC raises.  Result: (returned bool,
registry calls issued). -/
def process_and_create_client (o : DexOracle) (secretFor : Int → String)
    (mr : MergeRequest) : Bool × List RegistryCall :=
  let client_id := clientIdFor mr.iid
  let client_secret := generate_client_secret secretFor mr.iid
  let redirect_uri := redirectUriFor mr.iid
  let ec := client_with_id_exists o.listClients client_id
  if ec.1 then
    (false, [.listClients])
  else
    let new_client : Client :=
      { id := client_id
        secret := client_secret
        redirect_uris := [redirect_uri]
        trusted_peers := []
        public := false
        name := clientNameFor mr.iid mr.title
        logo_url := "" }
    match o.createClient new_client with
    | .ok _ => (true, [.listClients, .createClient new_client])
    | .error _ => (false, [.listClients, .createClient new_client])

/-- High-level action taken inside one cycle: one `ensure` per invocation of
`process_and_create_client` (EnsureClient), one `remove` per invocation of
`delete_client` (RemoveClient). -/
inductive Action
  | ensure (iid : Int) (title : String)
  | remove (iid : Int)
deriving Repr, DecidableEq

/-- The value produced by one cycle of `process_merge_requests`: the returned
pair `(current_mr_ids, new_mrs_found)` together with the collection of
high-level actions and of registry RPCs issued during the cycle.  The
collections are multisets: the claims about them concern which calls were
issued and how many times, and the Python iteration order over the
`closed_mrs` set is unspecified anyway. -/
structure CycleResult where
  current_mr_ids : Finset Int
  new_mrs_found : Bool
  actions : Multiset Action
  registry_calls : Multiset RegistryCall
deriving DecidableEq

/-- The `for mr in mrs:` loop of `process_merge_requests`: adds every `iid` to
`current_mr_ids` and, for each entry whose `iid` is not in `known_mr_ids`,
invokes `process_and_create_client`, or-ing the created flags into
`new_mrs_found`.  Membership is tested against the fixed `known_mr_ids`, not
the accumulating current set. -/
def processLoop (o : DexOracle) (secretFor : Int → String)
    (known_mr_ids : Finset Int) : List MergeRequest → CycleResult
  | [] => ⟨∅, false, 0, 0⟩
  | mr :: rest =>
      let r := processLoop o secretFor known_mr_ids rest
      if mr.iid ∈ known_mr_ids then
        { r with current_mr_ids := insert mr.iid r.current_mr_ids }
      else
        let pc := process_and_create_client o secretFor mr
        { current_mr_ids := insert mr.iid r.current_mr_ids
          new_mrs_found := pc.1 || r.new_mrs_found
          actions := Action.ensure mr.iid mr.title ::ₘ r.actions
          registry_calls := ↑pc.2 + r.registry_calls }

/-- The body of the `try` block of `process_merge_requests`, given that the
lister call returned the snapshot `mrs`: run the per-entry loop, compute
`closed_mrs = known_mr_ids - current_mr_ids`, call `delete_client` once per
closed id, and return `(current_mr_ids, new_mrs_found)`. -/
def runCycle (o : DexOracle) (secretFor : Int → String)
    (mrs : List MergeRequest) (known_mr_ids : Finset Int) : CycleResult :=
  let r := processLoop o secretFor known_mr_ids mrs
  let closed_mrs := known_mr_ids \ r.current_mr_ids
  { current_mr_ids := r.current_mr_ids
    new_mrs_found := r.new_mrs_found
    actions := r.actions + closed_mrs.val.map Action.remove
    registry_calls := r.registry_calls +
      closed_mrs.val.bind
        (fun mr_iid => ↑(delete_client o (clientIdFor mr_iid)).2) }

/-- `process_merge_requests(...)`: on a successful poll behaves as `runCycle`.
When the body raises: the `except gitlab.exceptions.GitlabError` and
`except Exception` clauses return `(known_mr_ids, False)` with no registry
call made; anything else (e.g. `KeyboardInterrupt`, which does not derive
from `Exception`) propagates, modelled by `Except.error`. -/
def process_merge_requests (o : DexOracle) (secretFor : Int → String)
    (listerResult : Except PyExc (List MergeRequest))
    (known_mr_ids : Finset Int) : Except PyExc CycleResult :=
  match listerResult with
  | .ok mrs => .ok (runCycle o secretFor mrs known_mr_ids)
  | .error e =>
      if e = PyExc.gitlabError then .ok ⟨known_mr_ids, false, 0, 0⟩
      else if derivesFromException e then .ok ⟨known_mr_ids, false, 0, 0⟩
      else .error e

/-- The environment-derived configuration read at the top of `main` (only the
four required keys; `None` models an absent variable). -/
structure Config where
  gitlab_token : Option String
  gitlab_url : Option String
  project_id : Option String
  dex_host : Option String
deriving Repr, DecidableEq

/-- Python truthiness of an optional string: `None` and `""` are falsy. -/
def truthy : Option String → Bool
  | none => false
  | some s => !(s == "")

/-- The `if not all([gitlab_token, gitlab_url, project_id, dex_host])` guard
of `main`. -/
def config_ok (c : Config) : Bool :=
  truthy c.gitlab_token && truthy c.gitlab_url &&
    truthy c.project_id && truthy c.dex_host

/-- How the process exited: exit code, whether `sys.exit` ran before the
polling loop was entered, and whether the missing-configuration diagnostic
line was printed first. -/
structure ProcExit where
  code : Nat
  beforeLoop : Bool
  printedDiagnostic : Bool
deriving Repr, DecidableEq

/-- `main()` control flow: if the required-configuration guard fails, print
the diagnostic and `sys.exit(1)` before the loop; otherwise the polling loop
runs forever and terminates only when a `KeyboardInterrupt` reaches the
`except KeyboardInterrupt` handler, which runs `sys.exit(0)`.  `interrupted`
says whether such an interrupt arrives; `none` means the process never
exits. -/
def main (c : Config) (interrupted : Bool) : Option ProcExit :=
  if !(config_ok c) then some ⟨1, true, true⟩
  else if interrupted then some ⟨0, false, false⟩
  else none

/-- Bool test: is this registry call a `CreateClient` request? -/
def isCreateCall : RegistryCall → Bool
  | .createClient _ => true
  | _ => false

/-- Bool test: an `ensure` action for the given iid. -/
def isEnsureFor (i : Int) : Action → Bool
  | .ensure j _ => j == i
  | _ => false

/-- Bool test: a `remove` action for the given iid. -/
def isRemoveFor (i : Int) : Action → Bool
  | .remove j => j == i
  | _ => false

/-- Number of EnsureClient invocations for iid `i` among the cycle actions. -/
def ensureCount (i : Int) (l : Multiset Action) : Nat :=
  l.countP (fun a => isEnsureFor i a = true)

/-- Number of RemoveClient invocations for iid `i` among the cycle actions. -/
def removeCount (i : Int) (l : Multiset Action) : Nat :=
  l.countP (fun a => isRemoveFor i a = true)

/-- Projects the cycle result out of a non-propagating cycle (used only to
state concrete evaluations). -/
def cycleResultOf (e : Except PyExc CycleResult) : CycleResult :=
  match e with
  | .ok r => r
  | .error _ => ⟨∅, false, 0, 0⟩

/-- Test oracle: empty registry, every RPC succeeds. -/
def oW : DexOracle :=
  { listClients := .ok []
    createClient := fun c => .ok c
    deleteClient := fun _ => .ok () }

/-- Test oracle: the `ListClients` RPC fails. -/
def oFailList : DexOracle :=
  { listClients := .error .unavailable
    createClient := fun c => .ok c
    deleteClient := fun _ => .ok () }

/-- Test oracle: every `DeleteClient` RPC fails. -/
def oFailDelete : DexOracle :=
  { listClients := .ok []
    createClient := fun c => .ok c
    deleteClient := fun _ => .error .unavailable }

/-- Test entropy source. -/
def sW : Int → String := fun _ => "sec"

/-- Test client record whose id is the one derived for merge request 7. -/
def cW7 : Client := ⟨"mr-7", "x", [], [], false, "n", ""⟩

/-- Test oracle: the registry already holds the client for merge request 7. -/
def oHas7 : DexOracle :=
  { listClients := .ok [cW7]
    createClient := fun c => .ok c
    deleteClient := fun _ => .ok () }

/-! Helper lemmas characterising one cycle. -/

/-- The per-entry loop accumulates exactly the snapshot identifiers into
`current_mr_ids`. -/
theorem processLoop_current (o : DexOracle) (s : Int → String) (prev : Finset Int) :
    ∀ mrs : List MergeRequest,
      (processLoop o s prev mrs).current_mr_ids = (mrs.map MergeRequest.iid).toFinset
  | [] => by simp [processLoop]
  | mr :: rest => by
      by_cases h : mr.iid ∈ prev <;>
        simp [processLoop, h, processLoop_current o s prev rest]

/-- The per-entry loop issues one `ensure` action per snapshot entry whose
identifier is not previously known, and nothing else. -/
theorem processLoop_actions (o : DexOracle) (s : Int → String) (prev : Finset Int) :
    ∀ mrs : List MergeRequest,
      (processLoop o s prev mrs).actions =
        ↑((mrs.filter (fun mr => !decide (mr.iid ∈ prev))).map
            (fun mr => Action.ensure mr.iid mr.title))
  | [] => by simp [processLoop]
  | mr :: rest => by
      by_cases h : mr.iid ∈ prev <;>
        simp [processLoop, h, processLoop_actions o s prev rest, List.filter_cons]

/-- The cycle returns the snapshot identifiers as the new known set. -/
theorem runCycle_current (o : DexOracle) (s : Int → String)
    (mrs : List MergeRequest) (prev : Finset Int) :
    (runCycle o s mrs prev).current_mr_ids = (mrs.map MergeRequest.iid).toFinset := by
  simp [runCycle, processLoop_current]

/-- EnsureClient invocations for `i` in a cycle count the snapshot entries
with identifier `i` that are not previously known. -/
theorem runCycle_ensureCount (o : DexOracle) (s : Int → String)
    (mrs : List MergeRequest) (prev : Finset Int) (i : Int) :
    ensureCount i (runCycle o s mrs prev).actions =
      mrs.countP (fun mr => mr.iid == i && !decide (mr.iid ∈ prev)) := by
  unfold ensureCount runCycle
  rw [Multiset.countP_add]
  have h2 : Multiset.countP (fun a => isEnsureFor i a = true)
      (Multiset.map Action.remove
        (prev \ (processLoop o s prev mrs).current_mr_ids).val) = 0 := by
    rw [Multiset.countP_eq_zero]
    intro a ha
    obtain ⟨j, _, rfl⟩ := Multiset.mem_map.mp ha
    simp [isEnsureFor]
  rw [h2, Nat.add_zero, processLoop_actions, Multiset.coe_countP,
    List.countP_map, List.countP_filter]
  apply List.countP_congr
  intro mr _
  simp [isEnsureFor, Function.comp]

/-- RemoveClient invocations for `i` in a cycle: exactly one when `i` is
previously known but absent from the snapshot, zero otherwise. -/
theorem runCycle_removeCount (o : DexOracle) (s : Int → String)
    (mrs : List MergeRequest) (prev : Finset Int) (i : Int) :
    removeCount i (runCycle o s mrs prev).actions =
      if i ∈ prev \ (mrs.map MergeRequest.iid).toFinset then 1 else 0 := by
  unfold removeCount runCycle
  rw [Multiset.countP_add]
  have h1 : Multiset.countP (fun a => isRemoveFor i a = true)
      (processLoop o s prev mrs).actions = 0 := by
    rw [Multiset.countP_eq_zero, processLoop_actions]
    intro a ha
    obtain ⟨mr, _, rfl⟩ := List.mem_map.mp (Multiset.mem_coe.mp ha)
    simp [isRemoveFor]
  rw [h1, Nat.zero_add, processLoop_current]
  have h2 : Multiset.countP (fun a => isRemoveFor i a = true)
      (Multiset.map Action.remove (prev \ (mrs.map MergeRequest.iid).toFinset).val) =
      Multiset.count i (prev \ (mrs.map MergeRequest.iid).toFinset).val := by
    rw [Multiset.countP_map, Multiset.count, Multiset.countP_eq_card_filter]
    congr 1
    apply Multiset.filter_congr
    intro j _
    simp only [isRemoveFor, beq_iff_eq]
    exact eq_comm
  rw [h2]
  by_cases h : i ∈ prev \ (mrs.map MergeRequest.iid).toFinset
  · rw [if_pos h]
    exact Multiset.count_eq_one_of_mem ((prev \ _).nodup) h
  · rw [if_neg h]
    exact Multiset.count_eq_zero_of_not_mem h

/-- A delete call is issued for every identifier in the closed set, whatever
the outcome of any individual `DeleteClient` RPC. -/
theorem runCycle_delete_mem (o : DexOracle) (s : Int → String)
    (mrs : List MergeRequest) (prev : Finset Int) (i : Int)
    (hi : i ∈ prev \ (runCycle o s mrs prev).current_mr_ids) :
    RegistryCall.deleteClient (clientIdFor i) ∈ (runCycle o s mrs prev).registry_calls := by
  have hi2 : i ∈ prev \ (processLoop o s prev mrs).current_mr_ids := by
    rw [processLoop_current]
    rw [runCycle_current] at hi
    exact hi
  unfold runCycle
  refine Multiset.mem_add.mpr (Or.inr ?_)
  refine Multiset.mem_bind.mpr ⟨i, hi2, ?_⟩
  unfold delete_client
  cases o.deleteClient (clientIdFor i) <;> simp

/-- When `i` is not previously known, the loop filter is vacuous for the
entries with identifier `i`. -/
theorem countP_ensure_eq (mrs : List MergeRequest) (prev : Finset Int) (i : Int)
    (hp : i ∉ prev) :
    mrs.countP (fun mr => mr.iid == i && !decide (mr.iid ∈ prev)) =
      mrs.countP (fun mr => mr.iid == i) := by
  apply List.countP_congr
  intro mr _
  constructor
  · intro h
    exact (Bool.and_eq_true _ _ |>.mp h).1
  · intro h
    have hiid : mr.iid = i := beq_iff_eq.mp h
    simp [h, hiid, hp]

/-- When `i` is previously known, no snapshot entry with identifier `i`
passes the loop filter. -/
theorem countP_ensure_zero (mrs : List MergeRequest) (prev : Finset Int) (i : Int)
    (hp : i ∈ prev) :
    mrs.countP (fun mr => mr.iid == i && !decide (mr.iid ∈ prev)) = 0 := by
  rw [List.countP_eq_zero]
  intro mr _
  intro hcontra
  obtain ⟨h1, h2⟩ := Bool.and_eq_true _ _ |>.mp hcontra
  have hiid : mr.iid = i := beq_iff_eq.mp h1
  rw [hiid] at h2
  simp [hp] at h2

/-- Counting snapshot entries with identifier `i` counts `i` in the projected
identifier list. -/
theorem countP_iid_eq_count (mrs : List MergeRequest) (i : Int) :
    mrs.countP (fun mr => mr.iid == i) = (mrs.map MergeRequest.iid).count i := by
  rw [List.count, List.countP_map]
  rfl

/-! Claim theorems. -/

/-- C1 (counterexample): when the `ListClients` RPC in the existence check
fails, `process_and_create_client` does not abort; at merge request
`(7, "fix bug")` with a failing list RPC it issues a `CreateClient` request
(and even returns `True`), contrary to the claim that EnsureClient aborts and
reports failure without issuing a create request. -/
theorem ensure_client_list_failure_cex :
    process_and_create_client oFailList sW ⟨7, "fix bug"⟩ =
      (true, [.listClients, .createClient
        ⟨"mr-7", "sec", ["https://mr-7.preview.example.com/callback"], [], false,
          "MR !7 - fix bug", ""⟩]) ∧
    (process_and_create_client oFailList sW ⟨7, "fix bug"⟩).2.any isCreateCall = true := by
  constructor <;> decide

/-- C1 (amended): when the registry existence check fails with an RPC error,
`client_with_id_exists` swallows the error and reports the client as absent,
and `process_and_create_client` proceeds to issue a create request exactly as
if the client did not exist. -/
theorem ensure_client_list_failure_creates (o : DexOracle) (s : Int → String)
    (mr : MergeRequest) (e : RpcError)
    (hl : o.listClients = .error e) :
    client_with_id_exists o.listClients (clientIdFor mr.iid) = (false, none) ∧
    (process_and_create_client o s mr).2 =
      [.listClients, .createClient
        { id := clientIdFor mr.iid
          secret := generate_client_secret s mr.iid
          redirect_uris := [redirectUriFor mr.iid]
          trusted_peers := []
          public := false
          name := clientNameFor mr.iid mr.title
          logo_url := "" }] := by
  have hex : client_with_id_exists o.listClients (clientIdFor mr.iid) = (false, none) := by
    rw [hl]
    rfl
  refine ⟨hex, ?_⟩
  unfold process_and_create_client
  simp only [hex, Bool.false_eq_true, if_false]
  cases o.createClient _ <;> rfl

/-- C1 (witness): the amended statement evaluated at a failing list oracle
and merge request `(8, "t")`. -/
theorem ensure_client_list_failure_creates_witness :
    (process_and_create_client oFailList sW ⟨8, "t"⟩).2 =
      [.listClients, .createClient
        { id := clientIdFor 8
          secret := generate_client_secret sW 8
          redirect_uris := [redirectUriFor 8]
          trusted_peers := []
          public := false
          name := clientNameFor 8 "t"
          logo_url := "" }] :=
  (ensure_client_list_failure_creates oFailList sW ⟨8, "t"⟩ .unavailable rfl).2

/-- C2: with a duplicate-free snapshot, one cycle issues exactly one
EnsureClient per identifier in `current - prev`, exactly one RemoveClient per
identifier in `prev - current`, and neither for identifiers in
`prev ∩ current`. -/
theorem reconcile_diff_exact (o : DexOracle) (s : Int → String)
    (mrs : List MergeRequest) (prev : Finset Int) (r : CycleResult)
    (hnd : (mrs.map MergeRequest.iid).Nodup)
    (hr : process_merge_requests o s (.ok mrs) prev = .ok r) :
    (∀ i, i ∈ r.current_mr_ids → i ∉ prev →
        ensureCount i r.actions = 1 ∧ removeCount i r.actions = 0) ∧
    (∀ i, i ∈ prev → i ∉ r.current_mr_ids →
        removeCount i r.actions = 1 ∧ ensureCount i r.actions = 0) ∧
    (∀ i, i ∈ prev → i ∈ r.current_mr_ids →
        ensureCount i r.actions = 0 ∧ removeCount i r.actions = 0) := by
  have hrc : runCycle o s mrs prev = r := Except.ok.inj hr
  subst hrc
  simp only [runCycle_current, runCycle_ensureCount, runCycle_removeCount]
  refine ⟨?_, ?_, ?_⟩
  · intro i hc hp
    constructor
    · rw [countP_ensure_eq mrs prev i hp, countP_iid_eq_count]
      exact List.count_eq_one_of_mem hnd (List.mem_toFinset.mp hc)
    · rw [if_neg]
      intro hmem
      exact hp (Finset.mem_sdiff.mp hmem).1
  · intro i hp hc
    refine ⟨?_, countP_ensure_zero mrs prev i hp⟩
    rw [if_pos (Finset.mem_sdiff.mpr ⟨hp, hc⟩)]
  · intro i hp hc
    refine ⟨countP_ensure_zero mrs prev i hp, ?_⟩
    rw [if_neg]
    intro hmem
    exact (Finset.mem_sdiff.mp hmem).2 hc

/-- C2 (witness): the diff property evaluated at snapshot `[(1, "a")]` and
previous known set `{2}`: one ensure for 1, one remove for 2. -/
theorem reconcile_diff_exact_witness :
    ensureCount 1 (cycleResultOf
        (process_merge_requests oW sW (.ok [⟨1, "a"⟩]) {2})).actions = 1 ∧
    removeCount 2 (cycleResultOf
        (process_merge_requests oW sW (.ok [⟨1, "a"⟩]) {2})).actions = 1 := by
  have h := reconcile_diff_exact oW sW [⟨1, "a"⟩] {2}
    (cycleResultOf (process_merge_requests oW sW (.ok [⟨1, "a"⟩]) {2}))
    (by decide) rfl
  exact ⟨(h.1 1 (by decide) (by decide)).1, (h.2.1 2 (by decide) (by decide)).1⟩

/-- C3: when the lister raises a GitLab API error, the cycle returns the
previous known set unchanged, `new_mrs_found = False`, and issues no action
and no registry call. -/
theorem poll_failure_preserves_state (o : DexOracle) (s : Int → String)
    (prev : Finset Int) :
    process_merge_requests o s (.error .gitlabError) prev = .ok ⟨prev, false, 0, 0⟩ := rfl

/-- C4: whenever the poll succeeds, the returned known set equals the set of
snapshot identifiers, for every oracle — hence regardless of whether any
individual create or delete RPC succeeded or failed. -/
theorem poll_success_returns_snapshot_ids (o : DexOracle) (s : Int → String)
    (mrs : List MergeRequest) (prev : Finset Int) (r : CycleResult)
    (hr : process_merge_requests o s (.ok mrs) prev = .ok r) :
    r.current_mr_ids = (mrs.map MergeRequest.iid).toFinset := by
  have hrc : runCycle o s mrs prev = r := Except.ok.inj hr
  subst hrc
  exact runCycle_current o s mrs prev

/-- C4 (witness): evaluated at a snapshot `[(7, "t")]`, previous set `{3}`
and an oracle whose deletes all fail: the returned set is still `{7}`. -/
theorem poll_success_returns_snapshot_ids_witness :
    (cycleResultOf (process_merge_requests oFailDelete sW (.ok [⟨7, "t"⟩]) {3})).current_mr_ids =
      ({7} : Finset Int) :=
  (poll_success_returns_snapshot_ids oFailDelete sW [⟨7, "t"⟩] {3}
    (cycleResultOf (process_merge_requests oFailDelete sW (.ok [⟨7, "t"⟩]) {3})) rfl).trans
    (by decide)

/-- C5: EnsureClient is idempotent: when the registry list contains a client
with the derived id and the existence check succeeds, the call issues no
create request (its only registry call is the list), returns `False`
(skipped), and a second call with the same merge request — whatever fresh
secret it generates — produces the identical result. -/
theorem ensure_client_idempotent (o : DexOracle) (s1 s2 : Int → String)
    (mr : MergeRequest) (cs : List Client) (c : Client)
    (hl : o.listClients = .ok cs) (hc : c ∈ cs)
    (hid : c.id = clientIdFor mr.iid) :
    process_and_create_client o s1 mr = (false, [.listClients]) ∧
    process_and_create_client o s2 mr = process_and_create_client o s1 mr := by
  have hex : (client_with_id_exists o.listClients (clientIdFor mr.iid)).1 = true := by
    have hsome : (cs.find? (fun client => client.id == clientIdFor mr.iid)).isSome :=
      List.find?_isSome.mpr ⟨c, hc, by simp [hid]⟩
    obtain ⟨c0, hc0⟩ := Option.isSome_iff_exists.mp hsome
    have hred : client_with_id_exists (Except.ok cs) (clientIdFor mr.iid) =
        match cs.find? (fun client => client.id == clientIdFor mr.iid) with
        | some client => (true, some client)
        | none => (false, none) := rfl
    rw [hl, hred, hc0]
  have key : ∀ s : Int → String,
      process_and_create_client o s mr = (false, [.listClients]) := by
    intro s
    unfold process_and_create_client
    simp only [hex, if_true]
  exact ⟨key s1, (key s2).trans (key s1).symm⟩

/-- C5 (witness): evaluated against a registry already holding `mr-7`. -/
theorem ensure_client_idempotent_witness :
    process_and_create_client oHas7 sW ⟨7, "t"⟩ = (false, [.listClients]) :=
  (ensure_client_idempotent oHas7 sW sW ⟨7, "t"⟩ [cW7] cW7 rfl
    (List.mem_singleton.mpr rfl) (by decide)).1

/-- C6: when the client is absent (and the list succeeds), the create request
carries exactly the derived fields: id `mr-<n>`, the single template redirect
URI, empty trusted peers, `public = false`, name `MR !<n> - <title>`, empty
logo URL — every field except the generated secret a function of the
identifier and title alone. -/
theorem ensure_client_create_fields (o : DexOracle) (s : Int → String)
    (mr : MergeRequest) (cs : List Client)
    (hl : o.listClients = .ok cs)
    (habs : ∀ c ∈ cs, c.id ≠ clientIdFor mr.iid) :
    (process_and_create_client o s mr).2 =
      [.listClients, .createClient
        { id := clientIdFor mr.iid
          secret := generate_client_secret s mr.iid
          redirect_uris := [redirectUriFor mr.iid]
          trusted_peers := []
          public := false
          name := clientNameFor mr.iid mr.title
          logo_url := "" }] := by
  have hex : client_with_id_exists o.listClients (clientIdFor mr.iid) = (false, none) := by
    have hnone : cs.find? (fun client => client.id == clientIdFor mr.iid) = none :=
      List.find?_eq_none.mpr (by intro c hc; simpa using habs c hc)
    have hred : client_with_id_exists (Except.ok cs) (clientIdFor mr.iid) =
        match cs.find? (fun client => client.id == clientIdFor mr.iid) with
        | some client => (true, some client)
        | none => (false, none) := rfl
    rw [hl, hred, hnone]
  unfold process_and_create_client
  simp only [hex, Bool.false_eq_true, if_false]
  cases o.createClient _ <;> rfl

/-- C6 (witness): evaluated at an empty registry and merge request
`(7, "fix bug")`. -/
theorem ensure_client_create_fields_witness :
    (process_and_create_client oW sW ⟨7, "fix bug"⟩).2 =
      [.listClients, .createClient
        { id := clientIdFor 7
          secret := generate_client_secret sW 7
          redirect_uris := [redirectUriFor 7]
          trusted_peers := []
          public := false
          name := clientNameFor 7 "fix bug"
          logo_url := "" }] :=
  ensure_client_create_fields oW sW ⟨7, "fix bug"⟩ [] rfl (by simp)

/-- C7: fault isolation of deletes: in a cycle whose closed set has more than
one identifier, even when the `DeleteClient` RPC fails for one of them, a
delete call is issued for every identifier of the closed set. -/
theorem delete_fault_isolation (o : DexOracle) (s : Int → String)
    (mrs : List MergeRequest) (prev : Finset Int) (r : CycleResult)
    (j : Int) (e : RpcError)
    (hr : process_merge_requests o s (.ok mrs) prev = .ok r)
    (hk : 1 < (prev \ r.current_mr_ids).card)
    (hj : j ∈ prev \ r.current_mr_ids)
    (hf : o.deleteClient (clientIdFor j) = .error e) :
    ∀ i ∈ prev \ r.current_mr_ids,
      RegistryCall.deleteClient (clientIdFor i) ∈ r.registry_calls := by
  have hrc : runCycle o s mrs prev = r := Except.ok.inj hr
  subst hrc
  intro i hi
  exact runCycle_delete_mem o s mrs prev i hi

/-- C7 (witness): closed set `{1, 2}`, every delete RPC failing: the delete
for 2 is still attempted. -/
theorem delete_fault_isolation_witness :
    RegistryCall.deleteClient (clientIdFor 2) ∈
      (cycleResultOf (process_merge_requests oFailDelete sW (.ok []) {1, 2})).registry_calls := by
  have h := delete_fault_isolation oFailDelete sW [] {1, 2}
    (cycleResultOf (process_merge_requests oFailDelete sW (.ok []) {1, 2}))
    1 .unavailable rfl (by decide) (by decide) rfl
  exact h 2 (by decide)

/-- C8: `main` exits with status 1, before the polling loop and after the
diagnostic line, when any of the four required configuration keys is absent;
with valid configuration, a keyboard interrupt produces a clean exit with
status 0. -/
theorem main_exit_codes (c : Config) (interrupted : Bool) :
    ((c.gitlab_token = none ∨ c.gitlab_url = none ∨ c.project_id = none ∨
        c.dex_host = none) →
      main c interrupted = some ⟨1, true, true⟩) ∧
    (config_ok c = true → main c true = some ⟨0, false, false⟩) := by
  constructor
  · intro h
    have hok : config_ok c = false := by
      rcases h with h | h | h | h <;> simp [config_ok, h, truthy]
    simp [main, hok]
  · intro h
    simp [main, h]

/-- C8 (witness): evaluated at a configuration missing the lister token, and
at a complete configuration with an interrupt. -/
theorem main_exit_codes_witness :
    main ⟨none, some "u", some "p", some "h"⟩ false = some ⟨1, true, true⟩ ∧
    main ⟨some "t", some "u", some "p", some "h"⟩ true = some ⟨0, false, false⟩ :=
  ⟨(main_exit_codes ⟨none, some "u", some "p", some "h"⟩ false).1 (Or.inl rfl),
   (main_exit_codes ⟨some "t", some "u", some "p", some "h"⟩ true).2 (by decide)⟩

/-- C9 (counterexample): not every exception raised within a cycle is caught:
a `KeyboardInterrupt` (which derives from `BaseException` but not from
`Exception`) raised with previous known set `{7}` propagates out of
`process_merge_requests` instead of yielding `(prev, False)`. -/
theorem cycle_keyboard_interrupt_propagates_cex :
    process_merge_requests oW sW (.error .keyboardInterrupt) {7} =
      .error .keyboardInterrupt ∧
    process_merge_requests oW sW (.error .keyboardInterrupt) {7} ≠
      .ok ⟨{7}, false, 0, 0⟩ := by
  refine ⟨rfl, ?_⟩
  intro h
  rw [show process_merge_requests oW sW (.error .keyboardInterrupt) {7} =
      .error .keyboardInterrupt from rfl] at h
  exact Except.noConfusion h

/-- C9 (amended): `process_merge_requests` catches every exception deriving
from `Exception` — GitLab API errors via the dedicated clause, everything
else via `except Exception` — and then returns the previous known set paired
with `False`; exceptions outside the `Exception` hierarchy, such as
`KeyboardInterrupt`, propagate. -/
theorem cycle_catches_exception_subclasses (o : DexOracle) (s : Int → String)
    (prev : Finset Int) (e : PyExc)
    (he : derivesFromException e = true) :
    process_merge_requests o s (.error e) prev = .ok ⟨prev, false, 0, 0⟩ := by
  cases e
  · rfl
  · rfl
  · exact absurd he (by decide)

/-- C9 (witness): a non-GitLab `Exception` subclass is caught and the
previous known set `{7}` is returned unchanged. -/
theorem cycle_catches_exception_subclasses_witness :
    process_merge_requests oW sW (.error .otherException) {7} =
      .ok ⟨{7}, false, 0, 0⟩ :=
  cycle_catches_exception_subclasses oW sW {7} .otherException rfl

/-- C10: when the snapshot contains several entries sharing an identifier not
previously known, the loop invokes the create path once per entry — the
number of EnsureClient invocations for that identifier equals the number of
its snapshot entries, so it exceeds one — while the returned known set, being
a set, contains the identifier once. -/
theorem duplicate_entries_create_per_entry (o : DexOracle) (s : Int → String)
    (mrs : List MergeRequest) (prev : Finset Int) (r : CycleResult) (i : Int)
    (hr : process_merge_requests o s (.ok mrs) prev = .ok r)
    (hnp : i ∉ prev)
    (hdup : 2 ≤ mrs.countP (fun mr => mr.iid == i)) :
    ensureCount i r.actions = mrs.countP (fun mr => mr.iid == i) ∧
    2 ≤ ensureCount i r.actions ∧
    i ∈ r.current_mr_ids := by
  have hrc : runCycle o s mrs prev = r := Except.ok.inj hr
  subst hrc
  rw [runCycle_ensureCount, runCycle_current, countP_ensure_eq mrs prev i hnp]
  refine ⟨rfl, hdup, ?_⟩
  have hpos : 0 < mrs.countP (fun mr => mr.iid == i) := by omega
  obtain ⟨mr, hmr, hbeq⟩ := List.countP_pos_iff.mp hpos
  exact List.mem_toFinset.mpr (List.mem_map.mpr ⟨mr, hmr, beq_iff_eq.mp hbeq⟩)

/-- C10 (witness): snapshot `[(5, "a"), (5, "b")]` over an empty previous
set: two EnsureClient invocations for 5, which the returned set contains. -/
theorem duplicate_entries_create_per_entry_witness :
    2 ≤ ensureCount 5 (cycleResultOf (process_merge_requests oW sW
        (.ok [⟨5, "a"⟩, ⟨5, "b"⟩]) ∅)).actions ∧
    5 ∈ (cycleResultOf (process_merge_requests oW sW
        (.ok [⟨5, "a"⟩, ⟨5, "b"⟩]) ∅)).current_mr_ids := by
  have h := duplicate_entries_create_per_entry oW sW [⟨5, "a"⟩, ⟨5, "b"⟩] ∅
    (cycleResultOf (process_merge_requests oW sW (.ok [⟨5, "a"⟩, ⟨5, "b"⟩]) ∅))
    5 rfl (by decide) (by decide)
  exact ⟨h.2.1, h.2.2⟩

end DexGen
